import Mathlib

/-!
Verification of the `currant` console-output consumer (`src/standard_out_api.rs`)
against its natural-language specification.

The Rust source under `src/` contains the rendering consumer side of the
supervisor: `run_commands_stdout`, `process_channel`, `parse_command_string`.
Collaborators whose code is not in the repository snapshot (the `shell_words`
tokenizer, the `color` module, the Line Framer inside the Worker) are modelled
from the spec and marked as such in their doc comments.

Byte vectors (`Vec<u8>`) are modelled as Lean `String`s; the claims under
study concern line terminators and textual content, for which this shallow
embedding is faithful.
-/

/-- Line terminator tag, from the spec's data model: `{ Newline, CarriageReturn }`.
Mirrors the Rust enum matched by `process_channel` via `is_carriage_return`. -/
inductive LineEnding
  | Newline
  | CarriageReturn
  deriving DecidableEq, Repr

/-- Mirrors the Rust `LineEnding::is_carriage_return()` predicate used at
lines 149 and 163 of `standard_out_api.rs`. -/
def LineEnding.is_carriage_return : LineEnding → Bool
  | .Newline => false
  | .CarriageReturn => true

/-- Modelled from the spec: the ANSI color collaborator's color type.
`Random` appears in the source (`Color::Random`, the default of
`ConsoleCommand`); the remaining variants are the pool of concrete
display colors the collaborator draws from. -/
inductive Color
  | Random
  | Red
  | Green
  | Yellow
  | Blue
  | Magenta
  | Cyan
  deriving DecidableEq, Repr

/-- Modelled from the spec: `color::open_sequence(color)` returns the ANSI
escape sequence opening the given display color. The exact byte content is
immaterial to the claims; what matters is that it is a function of the color. -/
def open_sequence : Color → String
  | .Random => "\x1b[0m"
  | .Red => "\x1b[31m"
  | .Green => "\x1b[32m"
  | .Yellow => "\x1b[33m"
  | .Blue => "\x1b[34m"
  | .Magenta => "\x1b[35m"
  | .Cyan => "\x1b[36m"

/-- Modelled from the spec: `color::close_sequence()`, the ANSI reset sequence. -/
def close_sequence : String := "\x1b[0m"

/-- The payload of one message on the shared channel
(`OutputMessagePayload` in the Rust source). Exit statuses are modelled as
integers; chunk byte vectors as strings. -/
inductive OutputMessagePayload
  | Start
  | Done (exit_status : Option Int)
  | Stdout (ending : LineEnding) (bytes : String)
  | Stderr (ending : LineEnding) (bytes : String)
  | Error (e : String)

/-- One message on the shared channel (`OutputMessage` in the Rust source):
a worker name together with a payload. -/
structure OutputMessage where
  name : String
  message : OutputMessagePayload

/-- The name-to-color map built by `run_commands_stdout`. `HashMap` is
modelled as an association list where insertion prepends; lookup takes the
first (most recently inserted) binding, matching `HashMap::insert`'s
overwrite semantics. -/
def ColorMap := List (String × Color)

/-- `HashMap::insert`: the new binding shadows any earlier binding of the key. -/
def mapInsert (m : ColorMap) (k : String) (v : Color) : ColorMap :=
  (k, v) :: m

/-- `HashMap::get`: the most recently inserted binding for the key, if any. -/
def mapGet (m : ColorMap) (k : String) : Option Color :=
  (List.find? (fun p => p.1 == k) m).map (fun p => p.2)

/-- The body of `process_channel`'s loop for one received message
(`standard_out_api.rs` lines 95-177). Returns `none` when the color-map
lookup's `unwrap` would panic, and `some out` with the bytes written to
stdout otherwise. The unconditional `write_all(color_open_sequence)` at
line 101 is the first component of the output; the `match` on the payload
contributes the rest. -/
def process_message (color_map : ColorMap) (num_cmds : Nat) (verbose : Bool)
    (file_handle_flags : Bool) (message : OutputMessage) : Option String :=
  match mapGet color_map message.name with
  | none => none
  | some output_color =>
    let color_open_sequence := open_sequence output_color
    let color_reset_sequence := close_sequence
    let std_out_flag := if file_handle_flags then "(o)" else ""
    let std_err_flag := if file_handle_flags then "(e)" else ""
    some (color_open_sequence ++
      match message.message with
      | OutputMessagePayload.Start =>
          if verbose then
            color_open_sequence ++ "SYSTEM: starting process " ++ message.name ++
              color_reset_sequence ++ "\n"
          else ""
      | OutputMessagePayload.Done (some exit_status) =>
          if verbose then
            color_open_sequence ++ message.name ++ ":" ++ color_reset_sequence ++
              " process exited with status: " ++ toString exit_status ++ "\n"
          else ""
      | OutputMessagePayload.Done none =>
          if verbose then
            color_open_sequence ++ message.name ++ ":" ++ color_reset_sequence ++
              " process exited without exit status\n"
          else ""
      | OutputMessagePayload.Stdout ending bytes =>
          let pre := color_open_sequence ++ message.name ++ " " ++ std_out_flag ++
            ":" ++ color_reset_sequence ++ " " ++ bytes
          if num_cmds == 1 && ending.is_carriage_return then pre.push '\r'
          else pre.push '\n'
      | OutputMessagePayload.Stderr ending bytes =>
          let pre := color_open_sequence ++ message.name ++ " " ++ std_err_flag ++
            ":" ++ color_reset_sequence ++ " " ++ bytes
          if num_cmds == 1 && ending.is_carriage_return then pre.push '\r'
          else pre.push '\n'
      | OutputMessagePayload.Error e =>
          color_open_sequence ++ "SYSTEM (e): Encountered error with process " ++
            message.name ++ ": " ++ e ++ color_reset_sequence ++ "\n")

/-- `process_channel` (`standard_out_api.rs` lines 81-179): the consumer loop.
The channel is modelled by the list of messages still to arrive; the empty
list models `chan.recv()` returning `Err` (all producers dropped), at which
point the Rust loop does `return`. The result is `some` of the concatenation
of everything written to stdout, or `none` if some message made the loop
panic on its color-map `unwrap`. -/
def process_channel (chan : List OutputMessage) (color_map : ColorMap)
    (num_cmds : Nat) (verbose : Bool) (file_handle_flags : Bool) : Option String :=
  match chan with
  | [] => some ""
  | message :: rest =>
    match process_message color_map num_cmds verbose file_handle_flags message with
    | none => none
    | some out =>
      match process_channel rest color_map num_cmds verbose file_handle_flags with
      | none => none
      | some outs => some (out ++ outs)

example : process_message [("a", Color.Red)] 1 false false
    ⟨"a", OutputMessagePayload.Stdout LineEnding.CarriageReturn "hi"⟩ =
    some ("\x1b[31m" ++ "\x1b[31m" ++ "a" ++ " " ++ "" ++ ":" ++ "\x1b[0m" ++ " " ++ "hi\r") := by
  decide

/-- The error type of `parse_command_string` (`CommandError` in the source):
`ParseError` carries the offending input string, `EmptyCommand` carries nothing. -/
inductive CommandError
  | ParseError (input : String)
  | EmptyCommand
  deriving DecidableEq, Repr

/-- State of the shell-style word splitter. -/
inductive SplitState
  | Delimiter
  | Unquoted
  | SingleQuoted
  | DoubleQuoted
  deriving DecidableEq, Repr

/-- Modelled from the spec: the core loop of the external tokenizer
collaborator (`shell_words::split`), whose code is not in the repository.
Per the spec it performs shell-style tokenization: words are separated by
whitespace, single and double quotes group characters (the quote characters
themselves are not part of the word), and tokenization fails on unbalanced
quoting (end of input inside a quoted region). `word` is the current word
accumulated in reverse; `acc` is the list of completed words in reverse. -/
def splitWords : List Char → SplitState → List Char → List String → Option (List String)
  | [], SplitState.Delimiter, _, acc => some acc.reverse
  | [], SplitState.Unquoted, word, acc => some ((String.mk word.reverse :: acc)).reverse
  | [], SplitState.SingleQuoted, _, _ => none
  | [], SplitState.DoubleQuoted, _, _ => none
  | c :: rest, SplitState.Delimiter, word, acc =>
      if c = '\'' then splitWords rest SplitState.SingleQuoted word acc
      else if c = '\"' then splitWords rest SplitState.DoubleQuoted word acc
      else if c = ' ' ∨ c = '\t' ∨ c = '\n' then splitWords rest SplitState.Delimiter word acc
      else splitWords rest SplitState.Unquoted (c :: word) acc
  | c :: rest, SplitState.Unquoted, word, acc =>
      if c = '\'' then splitWords rest SplitState.SingleQuoted word acc
      else if c = '\"' then splitWords rest SplitState.DoubleQuoted word acc
      else if c = ' ' ∨ c = '\t' ∨ c = '\n' then
        splitWords rest SplitState.Delimiter [] (String.mk word.reverse :: acc)
      else splitWords rest SplitState.Unquoted (c :: word) acc
  | c :: rest, SplitState.SingleQuoted, word, acc =>
      if c = '\'' then splitWords rest SplitState.Unquoted word acc
      else splitWords rest SplitState.SingleQuoted (c :: word) acc
  | c :: rest, SplitState.DoubleQuoted, word, acc =>
      if c = '\"' then splitWords rest SplitState.Unquoted word acc
      else splitWords rest SplitState.DoubleQuoted (c :: word) acc

/-- Modelled from the spec: the external tokenizer collaborator's entry point
`shell_words::split`, returning `none` on a tokenization failure
(unbalanced quoting) and `some words` otherwise. -/
def shell_words_split (s : String) : Option (List String) :=
  splitWords s.data SplitState.Delimiter [] []

/-- `parse_command_string` (`standard_out_api.rs` lines 181-193): tokenize the
command string; a tokenizer failure becomes `ParseError` carrying the input
string; an empty word list becomes `EmptyCommand`; otherwise the first word is
the program (`words.remove(0)`) and the remaining words are the arguments. -/
def parse_command_string (command : String) : Except CommandError (String × List String) :=
  match shell_words_split command with
  | none => Except.error (CommandError.ParseError command)
  | some [] => Except.error CommandError.EmptyCommand
  | some (w :: ws) => Except.ok (w, ws)

example : parse_command_string "ls -la .." = Except.ok ("ls", ["-la", ".."]) := by rfl
example : parse_command_string "  " = Except.error CommandError.EmptyCommand := by rfl
example : parse_command_string "echo 'abc" = Except.error (CommandError.ParseError "echo 'abc") := by
  rfl

/-- `Command` (modelled from the spec's Command Descriptor data model: name,
program, arguments, optional working directory). Only `name` is consulted by
the code under `src/`. -/
structure Command where
  name : String
  program : String
  args : List String
  cur_dir : Option String

/-- `ConsoleCommand` from the source: a `Command` paired with a display color
(defaulting to `Color::Random` on insertion). -/
structure ConsoleCommand where
  inner_command : Command
  color : Color

/-- The name-to-color map accumulation loop of `run_commands_stdout`
(`standard_out_api.rs` lines 57-61): for each command in registration order,
`name_color_hash.insert(name, color)`. -/
def build_name_color_hash (cmds : List ConsoleCommand) : ColorMap :=
  List.foldl (fun m cmd => mapInsert m cmd.inner_command.name cmd.color) [] cmds

/-- The `num_cmds` counter of the same loop: one increment per command. -/
def count_num_cmds (cmds : List ConsoleCommand) : Nat :=
  List.foldl (fun n _ => n + 1) 0 cmds

/-- The pool of concrete display colors.
Modelled from the spec's color collaborator. -/
def color_pool : List Color :=
  [Color.Red, Color.Green, Color.Yellow, Color.Blue, Color.Magenta, Color.Cyan]

/-- Modelled from the spec: `color::populate_random_colors` — "filling in any
name lacking an explicit color with one drawn from a pool". Every `Random`
entry is replaced by a pool color chosen by position; names and non-`Random`
colors are untouched, and the set of keys is unchanged. -/
def populate_from (idx : Nat) : ColorMap → ColorMap
  | [] => []
  | (n, c) :: rest =>
      if c = Color.Random then
        (n, color_pool.getD (idx % color_pool.length) Color.Red) :: populate_from (idx + 1) rest
      else
        (n, c) :: populate_from (idx + 1) rest

/-- Modelled from the spec: the color collaborator's entry point called at
line 63 of `standard_out_api.rs`. -/
def populate_random_colors (m : ColorMap) : ColorMap :=
  populate_from 0 m

/-- Modelled from the spec (§4.2 Line Framer): buffer bytes until a `\n` or
`\r` is seen; emit the buffered bytes (terminator excluded) tagged with the
terminator that triggered the emission; on stream end with a non-empty buffer,
emit a final chunk treated as `Newline`. The Worker code holding the framer is
not in the repository snapshot. `buffer` holds the pending bytes in reverse. -/
def frame : List Char → List Char → List (LineEnding × String)
  | [], buffer =>
      if buffer.isEmpty then [] else [(LineEnding.Newline, String.mk buffer.reverse)]
  | c :: rest, buffer =>
      if c = '\n' then (LineEnding.Newline, String.mk buffer.reverse) :: frame rest []
      else if c = '\r' then (LineEnding.CarriageReturn, String.mk buffer.reverse) :: frame rest []
      else frame rest (c :: buffer)

/-- Modelled from the spec: frame an entire byte stream, starting from an
empty buffer. -/
def frame_stream (s : String) : List (LineEnding × String) :=
  frame s.data []

example : frame_stream "abc\rdef\n" =
    [(LineEnding.CarriageReturn, "abc"), (LineEnding.Newline, "def")] := by decide

/-! ## Helper lemmas -/

/-- The last byte of `a ++ pre.push c` is `c`: pushing a terminator byte onto
the line makes it the line's final byte. -/
lemma getLast_append_push (a pre : String) (c : Char) :
    (a ++ pre.push c).data.getLast? = some c := by
  have h : (a ++ pre.push c).data = a.data ++ pre.data ++ [c] := by
    show a.data ++ (pre.data ++ [c]) = a.data ++ pre.data ++ [c]
    exact (List.append_assoc _ _ _).symm
  rw [h, List.getLast?_append_cons]
  rfl

/-- The final byte of the terminator-choosing expression of the `Stdout` and
`Stderr` branches: `'\r'` exactly when the condition holds, `'\n'` otherwise. -/
lemma term_char (a pre : String) (b : Bool) :
    ((a ++ (if b then pre.push '\r' else pre.push '\n')).data.getLast? = some '\r' ↔ b = true) ∧
    ((a ++ (if b then pre.push '\r' else pre.push '\n')).data.getLast? = some '\n' ↔ b = false) := by
  cases b <;> simp [getLast_append_push]

/-- The Rust guard `num_cmds == 1 && ending.is_carriage_return()` holds exactly
when there is exactly one command and the chunk ends in a carriage return. -/
lemma cr_condition (num_cmds : Nat) (ending : LineEnding) :
    ((num_cmds == 1 && ending.is_carriage_return) = true) ↔
      (num_cmds = 1 ∧ ending = LineEnding.CarriageReturn) := by
  cases ending <;> simp [LineEnding.is_carriage_return]

/-- The accumulation loop of `run_commands_stdout` produces, on top of the
initial map, the registration-order bindings reversed (latest binding first). -/
lemma build_fold_eq (cmds : List ConsoleCommand) (m : List (String × Color)) :
    List.foldl (fun m cmd => mapInsert m cmd.inner_command.name cmd.color) m cmds =
      (cmds.map (fun cmd => (cmd.inner_command.name, cmd.color))).reverse ++ m := by
  induction cmds generalizing m with
  | nil => simp
  | cons c rest ih =>
      rw [List.foldl_cons, ih]
      simp [mapInsert, List.append_assoc]

/-- Characterization of the name-to-color map built by `run_commands_stdout`:
the color recorded for a name is the color of the LAST registered command with
that name (HashMap insertion overwrites earlier bindings). -/
lemma mapGet_build (cmds : List ConsoleCommand) (k : String) :
    mapGet (build_name_color_hash cmds) k =
      (List.find? (fun cmd => cmd.inner_command.name == k) cmds.reverse).map
        (fun cmd => cmd.color) := by
  unfold build_name_color_hash
  rw [build_fold_eq]
  unfold mapGet
  rw [List.append_nil, ← List.map_reverse, List.find?_map, Option.map_map]
  rfl

/-- Lookup on a cons cell of the association-list map. -/
lemma mapGet_cons (n : String) (x : Color) (l : List (String × Color)) (k : String) :
    mapGet ((n, x) :: l) k = if (n == k) = true then some x else mapGet l k := by
  by_cases h : (n == k) = true <;> simp [mapGet, List.find?, h]

/-- `populate_from` never changes whether a key is present in the map. -/
lemma mapGet_populate_from_isSome (m : List (String × Color)) :
    ∀ (idx : Nat) (k : String),
      (mapGet (populate_from idx m) k).isSome = (mapGet m k).isSome := by
  induction m with
  | nil => intro idx k; rfl
  | cons p rest ih =>
      intro idx k
      obtain ⟨n, c⟩ := p
      by_cases hc : c = Color.Random
      · have hp : populate_from idx ((n, c) :: rest) =
            (n, color_pool.getD (idx % color_pool.length) Color.Red) ::
              populate_from (idx + 1) rest := by
          simp [populate_from, hc]
        rw [hp, mapGet_cons, mapGet_cons]
        by_cases hnk : (n == k) = true <;> simp [hnk, ih]
      · have hp : populate_from idx ((n, c) :: rest) = (n, c) :: populate_from (idx + 1) rest := by
          simp [populate_from, hc]
        rw [hp, mapGet_cons, mapGet_cons]
        by_cases hnk : (n == k) = true <;> simp [hnk, ih]

/-- The counting loop, generalized over the accumulator. -/
lemma count_foldl (l : List ConsoleCommand) :
    ∀ n : Nat, List.foldl (fun n _ => n + 1) n l = n + l.length := by
  induction l with
  | nil => intro n; simp
  | cons x xs ih =>
      intro n
      rw [List.foldl_cons, ih]
      simp only [List.length_cons]
      omega

/-- `count_num_cmds` counts one per registered command. -/
lemma count_num_cmds_eq (cmds : List ConsoleCommand) : count_num_cmds cmds = cmds.length := by
  unfold count_num_cmds
  rw [count_foldl]
  omega

/-- On input consisting only of shell whitespace (space, tab, newline), the
splitter stays in the `Delimiter` state and completes no word. -/
lemma splitWords_whitespace (cs : List Char) :
    ∀ (word : List Char) (acc : List String),
      (∀ c ∈ cs, c = ' ' ∨ c = '\t' ∨ c = '\n') →
      splitWords cs SplitState.Delimiter word acc = some acc.reverse := by
  induction cs with
  | nil => intro word acc _; rfl
  | cons c rest ih =>
      intro word acc h
      have hc := h c (List.mem_cons_self c rest)
      have hrest : ∀ x ∈ rest, x = ' ' ∨ x = '\t' ∨ x = '\n' :=
        fun x hx => h x (List.mem_cons_of_mem c hx)
      have h1 : ¬ c = '\'' := by rcases hc with h' | h' | h' <;> rw [h'] <;> decide
      have h2 : ¬ c = '\"' := by rcases hc with h' | h' | h' <;> rw [h'] <;> decide
      simp only [splitWords]
      rw [if_neg h1, if_neg h2, if_pos hc]
      exact ih word acc hrest

/-! ## Claims -/

/-- C1: for every `Stdout` or `Stderr` chunk rendered by the consumer, the
rendered line's final byte is `'\r'` iff exactly one command is registered
(`num_cmds = 1`) and the chunk's terminator is `CarriageReturn`; in every
other case the final byte is `'\n'`. -/
theorem stdout_stderr_terminator (color_map : ColorMap) (num_cmds : Nat)
    (verbose file_handle_flags : Bool) (name : String) (ending : LineEnding)
    (outBytes errBytes : String) (c : Color)
    (h : mapGet color_map name = some c) :
    (∃ rendered,
      process_message color_map num_cmds verbose file_handle_flags
          ⟨name, OutputMessagePayload.Stdout ending outBytes⟩ = some rendered ∧
      (rendered.data.getLast? = some '\r' ↔
        (num_cmds = 1 ∧ ending = LineEnding.CarriageReturn)) ∧
      (rendered.data.getLast? = some '\n' ↔
        ¬(num_cmds = 1 ∧ ending = LineEnding.CarriageReturn))) ∧
    (∃ rendered,
      process_message color_map num_cmds verbose file_handle_flags
          ⟨name, OutputMessagePayload.Stderr ending errBytes⟩ = some rendered ∧
      (rendered.data.getLast? = some '\r' ↔
        (num_cmds = 1 ∧ ending = LineEnding.CarriageReturn)) ∧
      (rendered.data.getLast? = some '\n' ↔
        ¬(num_cmds = 1 ∧ ending = LineEnding.CarriageReturn))) := by
  constructor <;>
  · simp only [process_message, h]
    refine ⟨_, rfl, ?_, ?_⟩
    · rw [(term_char _ _ _).1]
      exact cr_condition num_cmds ending
    · rw [(term_char _ _ _).2, ← Bool.not_eq_true, cr_condition]

/-- Witness for C1 at a concrete input: one registered command, a
carriage-return-terminated stdout chunk. -/
theorem stdout_stderr_terminator_witness :
    mapGet [("a", Color.Red)] "a" = some Color.Red ∧
    (∃ rendered,
      process_message [("a", Color.Red)] 1 false false
          ⟨"a", OutputMessagePayload.Stdout LineEnding.CarriageReturn "hi"⟩ = some rendered ∧
      (rendered.data.getLast? = some '\r' ↔
        ((1 : Nat) = 1 ∧ LineEnding.CarriageReturn = LineEnding.CarriageReturn)) ∧
      (rendered.data.getLast? = some '\n' ↔
        ¬((1 : Nat) = 1 ∧ LineEnding.CarriageReturn = LineEnding.CarriageReturn))) :=
  ⟨by rfl,
   (stdout_stderr_terminator [("a", Color.Red)] 1 false false "a"
      LineEnding.CarriageReturn "hi" "oops" Color.Red (by rfl)).1⟩

/-- C2: whenever shell-style tokenization of the command string succeeds with
a non-empty token list, `parse_command_string` returns `Ok` with the first
token as the program and the remaining tokens, in order, as the arguments. -/
theorem parse_command_string_ok (command : String) (w : String) (ws : List String)
    (h : shell_words_split command = some (w :: ws)) :
    parse_command_string command = Except.ok (w, ws) := by
  unfold parse_command_string
  rw [h]

/-- Witness for C2 at a concrete input. -/
theorem parse_command_string_ok_witness :
    shell_words_split "ls -la ." = some ("ls" :: ["-la", "."]) ∧
    parse_command_string "ls -la ." = Except.ok ("ls", ["-la", "."]) :=
  ⟨by rfl, parse_command_string_ok "ls -la ." "ls" ["-la", "."] (by rfl)⟩

/-- C3: for every input that is empty or consists only of (shell) whitespace,
`parse_command_string` returns the `EmptyCommand` error. -/
theorem parse_command_string_empty (s : String)
    (h : ∀ c ∈ s.data, c = ' ' ∨ c = '\t' ∨ c = '\n') :
    parse_command_string s = Except.error CommandError.EmptyCommand := by
  have hsplit : shell_words_split s = some [] :=
    splitWords_whitespace s.data [] [] h
  unfold parse_command_string
  rw [hsplit]

/-- Witness for C3 at concrete inputs: the empty string and a
whitespace-only string. -/
theorem parse_command_string_empty_witness :
    (∀ c ∈ ("  \t" : String).data, c = ' ' ∨ c = '\t' ∨ c = '\n') ∧
    parse_command_string "  \t" = Except.error CommandError.EmptyCommand ∧
    parse_command_string "" = Except.error CommandError.EmptyCommand :=
  ⟨by decide,
   parse_command_string_empty "  \t" (by decide),
   parse_command_string_empty "" (by decide)⟩

/-- C4: whenever shell-style tokenization fails (unbalanced quoting), the
result is a `ParseError` carrying the offending input string. -/
theorem parse_command_string_parse_error (s : String)
    (h : shell_words_split s = none) :
    parse_command_string s = Except.error (CommandError.ParseError s) := by
  unfold parse_command_string
  rw [h]

/-- Witness for C4 at a concrete input with an unbalanced single quote. -/
theorem parse_command_string_parse_error_witness :
    shell_words_split "echo 'abc" = none ∧
    parse_command_string "echo 'abc" = Except.error (CommandError.ParseError "echo 'abc") :=
  ⟨by rfl, parse_command_string_parse_error "echo 'abc" (by rfl)⟩

/-- C5: when the receive on the shared channel fails (all producers dropped),
`process_channel` returns normally — no further output is rendered and no
error is signalled: channel closure is normal run completion. -/
theorem process_channel_closed_is_normal_completion (color_map : ColorMap)
    (num_cmds : Nat) (verbose file_handle_flags : Bool) :
    process_channel [] color_map num_cmds verbose file_handle_flags = some "" := rfl

/-- C6 counterexample: registering two commands that share the name "a" (the
first colored `Red`, the second `Blue`) produces no failure anywhere in
`run_commands_stdout`'s registration loop; the map it builds records `Blue`
for "a" — the first command's color mapping is silently overwritten — while
`num_cmds` still counts both registrations. -/
theorem duplicate_name_overwrite_counterexample :
    mapGet (build_name_color_hash
        [⟨⟨"a", "p1", [], none⟩, Color.Red⟩, ⟨⟨"a", "p2", [], none⟩, Color.Blue⟩]) "a" =
      some Color.Blue ∧
    Color.Blue ≠ Color.Red ∧
    count_num_cmds
        [⟨⟨"a", "p1", [], none⟩, Color.Red⟩, ⟨⟨"a", "p2", [], none⟩, Color.Blue⟩] = 2 :=
  ⟨by rfl, by decide, by rfl⟩

/-- C6 (amended): duplicate names are not rejected. The name-to-color map
built by `run_commands_stdout` records, for each name, the color of the LAST
registered command with that name (later registrations silently overwrite
earlier ones), and `num_cmds` counts every registration including duplicates. -/
theorem duplicate_name_last_registration_wins (cmds : List ConsoleCommand) (k : String) :
    mapGet (build_name_color_hash cmds) k =
      (List.find? (fun cmd => cmd.inner_command.name == k) cmds.reverse).map
        (fun cmd => cmd.color) ∧
    count_num_cmds cmds = cmds.length :=
  ⟨mapGet_build cmds k, count_num_cmds_eq cmds⟩

/-- C7: an `Error` (worker error) message is rendered identically for every
`verbose` setting, as a SYSTEM line containing the worker's name and the error
text, and the consumer returns `some` output (no crash, nothing dropped). -/
theorem error_message_always_rendered (color_map : ColorMap) (num_cmds : Nat)
    (file_handle_flags : Bool) (name e : String) (c : Color)
    (h : mapGet color_map name = some c) :
    ∀ verbose : Bool,
      process_message color_map num_cmds verbose file_handle_flags
          ⟨name, OutputMessagePayload.Error e⟩ =
        some (open_sequence c ++ (open_sequence c ++
          "SYSTEM (e): Encountered error with process " ++ name ++ ": " ++ e ++
          close_sequence ++ "\n")) := by
  intro verbose
  simp only [process_message, h]

/-- Witness for C7 at a concrete input, with `verbose = true`. -/
theorem error_message_always_rendered_witness :
    mapGet [("a", Color.Red)] "a" = some Color.Red ∧
    process_message [("a", Color.Red)] 2 true false
        ⟨"a", OutputMessagePayload.Error "boom"⟩ =
      some (open_sequence Color.Red ++ (open_sequence Color.Red ++
        "SYSTEM (e): Encountered error with process " ++ "a" ++ ": " ++ "boom" ++
        close_sequence ++ "\n")) :=
  ⟨by rfl,
   error_message_always_rendered [("a", Color.Red)] 2 false "a" "boom" Color.Red (by rfl) true⟩

/-- C8: the Line Framer splits a byte stream on `\n` or `\r`, emitting each
buffered segment (terminator excluded) tagged with the terminator that
triggered it: the stream "abc\r" followed by "def\n" yields exactly the two
chunks `(CarriageReturn, "abc")` then `(Newline, "def")`. -/
theorem framer_splits_cr_then_nl :
    frame_stream ("abc\r" ++ "def\n") =
      [(LineEnding.CarriageReturn, "abc"), (LineEnding.Newline, "def")] := by
  decide

/-- C9: for any message whose name is the name of some registered command, the
color map built by `run_commands_stdout` (after `populate_random_colors`)
contains the name, so the consumer's lookup-`unwrap` cannot panic:
`process_message` returns `some` output. -/
theorem registered_name_lookup_never_panics (cmds : List ConsoleCommand)
    (num_cmds : Nat) (verbose file_handle_flags : Bool) (msg : OutputMessage)
    (h : msg.name ∈ cmds.map (fun cmd => cmd.inner_command.name)) :
    ∃ out,
      process_message (populate_random_colors (build_name_color_hash cmds))
        num_cmds verbose file_handle_flags msg = some out := by
  have hfound : ∃ cmd ∈ cmds.reverse, (fun cmd => cmd.inner_command.name == msg.name) cmd := by
    obtain ⟨cmd, hmem, hname⟩ := List.mem_map.mp h
    exact ⟨cmd, List.mem_reverse.mpr hmem, by simp [hname]⟩
  have hfind := List.find?_isSome.mpr hfound
  obtain ⟨x, hx⟩ := Option.isSome_iff_exists.mp hfind
  have hsome : (mapGet (populate_random_colors (build_name_color_hash cmds)) msg.name).isSome := by
    rw [populate_random_colors, mapGet_populate_from_isSome, mapGet_build, hx]
    rfl
  obtain ⟨col, hcol⟩ := Option.isSome_iff_exists.mp hsome
  unfold process_message
  rw [hcol]
  exact ⟨_, rfl⟩

/-- Witness for C9 at a concrete input: one registered command named "a"
(color left `Random`), a `Start` message for "a". -/
theorem registered_name_lookup_never_panics_witness :
    "a" ∈ ([⟨⟨"a", "p", [], none⟩, Color.Random⟩] : List ConsoleCommand).map
        (fun cmd => cmd.inner_command.name) ∧
    ∃ out,
      process_message (populate_random_colors (build_name_color_hash
          [⟨⟨"a", "p", [], none⟩, Color.Random⟩])) 1 true false
        ⟨"a", OutputMessagePayload.Start⟩ = some out :=
  ⟨by decide,
   registered_name_lookup_never_panics [⟨⟨"a", "p", [], none⟩, Color.Random⟩] 1 true false
     ⟨"a", OutputMessagePayload.Start⟩ (by decide)⟩

/-- C10: with `verbose = false`, `Start` and `Done` messages render nothing
beyond the unconditional color-open escape sequence; `Stdout`, `Stderr` and
`Error` messages render identically for both verbose settings; with
`verbose = true`, `Start` renders a SYSTEM line naming the worker and `Done`
renders a status line naming the worker and the exit status when present. -/
theorem verbose_gating (color_map : ColorMap) (num_cmds : Nat)
    (file_handle_flags : Bool) (name : String) (c : Color)
    (h : mapGet color_map name = some c) :
    (process_message color_map num_cmds false file_handle_flags
        ⟨name, OutputMessagePayload.Start⟩ = some (open_sequence c)) ∧
    (∀ st : Option Int,
      process_message color_map num_cmds false file_handle_flags
          ⟨name, OutputMessagePayload.Done st⟩ = some (open_sequence c)) ∧
    (∀ (ending : LineEnding) (bytes : String),
      process_message color_map num_cmds true file_handle_flags
          ⟨name, OutputMessagePayload.Stdout ending bytes⟩ =
        process_message color_map num_cmds false file_handle_flags
          ⟨name, OutputMessagePayload.Stdout ending bytes⟩) ∧
    (∀ (ending : LineEnding) (bytes : String),
      process_message color_map num_cmds true file_handle_flags
          ⟨name, OutputMessagePayload.Stderr ending bytes⟩ =
        process_message color_map num_cmds false file_handle_flags
          ⟨name, OutputMessagePayload.Stderr ending bytes⟩) ∧
    (∀ e : String,
      process_message color_map num_cmds true file_handle_flags
          ⟨name, OutputMessagePayload.Error e⟩ =
        process_message color_map num_cmds false file_handle_flags
          ⟨name, OutputMessagePayload.Error e⟩) ∧
    (process_message color_map num_cmds true file_handle_flags
        ⟨name, OutputMessagePayload.Start⟩ =
      some (open_sequence c ++ (open_sequence c ++ "SYSTEM: starting process " ++ name ++
        close_sequence ++ "\n"))) ∧
    (∀ es : Int,
      process_message color_map num_cmds true file_handle_flags
          ⟨name, OutputMessagePayload.Done (some es)⟩ =
        some (open_sequence c ++ (open_sequence c ++ name ++ ":" ++ close_sequence ++
          " process exited with status: " ++ toString es ++ "\n"))) ∧
    (process_message color_map num_cmds true file_handle_flags
        ⟨name, OutputMessagePayload.Done none⟩ =
      some (open_sequence c ++ (open_sequence c ++ name ++ ":" ++ close_sequence ++
        " process exited without exit status\n"))) := by
  refine ⟨?_, ?_, ?_, ?_, ?_, ?_, ?_, ?_⟩
  · simp [process_message, h, String.append_empty]
  · intro st
    cases st <;> simp [process_message, h, String.append_empty]
  · intro ending bytes
    simp [process_message, h]
  · intro ending bytes
    simp [process_message, h]
  · intro e
    simp [process_message, h]
  · simp [process_message, h]
  · intro es
    simp [process_message, h]
  · simp [process_message, h]

/-- Witness for C10 at a concrete input: `Start` with `verbose = false`
renders exactly the color-open escape sequence. -/
theorem verbose_gating_witness :
    mapGet [("a", Color.Red)] "a" = some Color.Red ∧
    process_message [("a", Color.Red)] 1 false false ⟨"a", OutputMessagePayload.Start⟩ =
      some (open_sequence Color.Red) :=
  ⟨by rfl, (verbose_gating [("a", Color.Red)] 1 false "a" Color.Red (by rfl)).1⟩
